import Mathlib

/-!
Verification development for the donor-widow relationship resolution and
network-graph construction engine of the Omri Association dashboard.

Two routines are embedded:

* `createNetworkSection` models the resolution pipeline of
  `create_network_section` in `src/ui/dashboard_sections.py` (lines 220-390):
  building the candidate donor set, the four-tier fuzzy name matcher, the
  per-beneficiary connected/unconnected classification, the edge list and the
  grouped node list, and the render-vs-no-data decision.
* `create_network_graph` models `create_network_graph` in
  `src/modules/graph_builder.py` (lines 13-191): data cleaning, the four layout
  regions, the most-recent-donation selection, edge width and colour tier, and
  the catch-all exception boundary that returns an empty snapshot.

Python strings are Lean `String`; all string operations are re-implemented
over `List Char` by structural recursion so that concrete runs reduce inside
the kernel.  Python numbers are `ℚ`, except that the source computes the line
layout coordinates and node sizes with integer arithmetic, which is `ℤ`/`ℕ`
here.  Missing values (NaN/NaT) are `Option`/`Cell.absent`.  Fallible dynamic
column access is an `Except String` computation; the catch-all handler of
`create_network_graph` is the `Except` boundary.
-/

namespace OmriNet

/-- Python str.strip over a character list: drop whitespace from both ends. -/
def trimL (l : List Char) : List Char :=
  ((l.dropWhile Char.isWhitespace).reverse.dropWhile Char.isWhitespace).reverse

/-- Python str.strip, as used for name normalisation throughout the source. -/
def pyStrip (s : String) : String := String.mk (trimL s.toList)

/-- Python str.lower (code-point wise, as for the ASCII range used here). -/
def pyLower (s : String) : String := String.mk (s.toList.map Char.toLower)

/-- Python substring test a in b over character lists.  The empty list is a
sublist of every list, exactly as the empty Python string is in every
string. -/
def subList (a : List Char) : List Char → Bool
  | [] => a.isEmpty
  | c :: cs => a.isPrefixOf (c :: cs) || subList a cs

/-- Python substring containment a in b. -/
def pyIn (a b : String) : Bool := subList a.toList b.toList

/-- Python str.replace(pat, rep): replace every non-overlapping occurrence,
scanning left to right.  The fuel argument starts at the length of the list;
every step consumes at least one character, so the fuel never runs out on the
initial call.  The source only replaces non-empty patterns, and for an empty
pattern this returns the input unchanged. -/
def replaceFuel (pat rep : List Char) : Nat → List Char → List Char
  | 0, l => l
  | _ + 1, [] => []
  | fuel + 1, c :: cs =>
    if pat ≠ [] && pat.isPrefixOf (c :: cs) then
      rep ++ replaceFuel pat rep fuel ((c :: cs).drop pat.length)
    else
      c :: replaceFuel pat rep fuel cs

/-- Python str.replace on strings. -/
def pyReplace (s pat rep : String) : String :=
  String.mk (replaceFuel pat.toList rep.toList s.toList.length s.toList)

/-- The regular-expression substitution used by the abbreviation tier
(dashboard_sections.py lines 313-314): delete every period together with the
whitespace run following it. -/
def dropDotsFuel : Nat → List Char → List Char
  | 0, l => l
  | _ + 1, [] => []
  | fuel + 1, c :: cs =>
    if c = '.' then dropDotsFuel fuel (cs.dropWhile Char.isWhitespace)
    else c :: dropDotsFuel fuel cs

/-- Remove abbreviation punctuation: periods and the whitespace after them. -/
def pyDropDots (s : String) : String :=
  String.mk (dropDotsFuel s.toList.length s.toList)

/-- The condition shared by the three scanning tiers of the matcher
(dashboard_sections.py lines 286-288, 299-301, 317-319): donor contained in
candidate, candidate contained in donor, or case-insensitive equality. -/
def tierHit (d p : String) : Bool :=
  pyIn d p || pyIn p d || (pyLower d == pyLower p)

/-- The cleaning used by the suffix-stripping tier (lines 296-297): remove the
three organisational tokens and strip the result. -/
def stripOrgTokens (s : String) : String :=
  pyStrip (pyReplace (pyReplace (pyReplace s "בע\"מ" "") "עמותת" "") "חברה" "")

/-- The three scanning tiers of the matcher (dashboard_sections.py lines
284-321), tried in order on an already stripped query: plain substring, then
suffix-stripped, then abbreviation-folded; each tier re-scans the whole
candidate list in iteration order and returns the first candidate hit. -/
def fuzzyScan (d : String) (allDonors : List String) : Option String :=
  match allDonors.find? (fun p => tierHit d p) with
  | some p => some p
  | none =>
    match allDonors.find? (fun p => tierHit (stripOrgTokens d) (stripOrgTokens p)) with
    | some p => some p
    | none => allDonors.find? (fun p => tierHit (pyDropDots d) (pyDropDots p))

/-- The fuzzy matcher of create_network_section (dashboard_sections.py lines
276-321).  The query is stripped; the exact tier is set membership and returns
the stripped query itself; only when it misses do the scanning tiers run. -/
def fuzzyMatch (donor : String) (allDonors : List String) : Option String :=
  if allDonors.contains (pyStrip donor) then some (pyStrip donor)
  else fuzzyScan (pyStrip donor) allDonors

/-- One spreadsheet cell: missing (NaN/NaT), numeric, or free text. -/
inductive Cell where
  | absent
  | num (q : ℚ)
  | text (s : String)
  deriving DecidableEq

/-- Value of a run of decimal digits. -/
def digitsVal (cs : List Char) : ℕ :=
  cs.foldl (fun n c => 10 * n + (c.toNat - 48)) 0

/-- Parse an unsigned decimal literal, optionally with a fractional part.
Models the numeric coercion applied by the source (pd.to_numeric and float)
on plain decimal literals; exponents and special values are out of scope and
fail, which coerces to zero exactly like any other non-numeric text. -/
def parseUnsigned? (cs : List Char) : Option ℚ :=
  match cs.span (fun c => c != '.') with
  | (intPart, []) =>
    if intPart ≠ [] && intPart.all Char.isDigit then some (digitsVal intPart) else none
  | (intPart, _ :: fracPart) =>
    if (intPart ≠ [] || fracPart ≠ []) && intPart.all Char.isDigit
        && fracPart.all Char.isDigit then
      some ((digitsVal intPart : ℚ) + (digitsVal fracPart : ℚ) / (10 ^ fracPart.length))
    else none

/-- Parse a signed decimal literal after stripping whitespace. -/
def parseNum? (s : String) : Option ℚ :=
  match trimL s.toList with
  | [] => none
  | '-' :: rest => (parseUnsigned? rest).map (fun q => -q)
  | '+' :: rest => parseUnsigned? rest
  | cs => parseUnsigned? cs

/-- The column-wide cleaning of the monthly support column
(dashboard_sections.py line 223): pd.to_numeric with coercion, then fillna(0).
Missing, empty and non-numeric cells all become zero. -/
def coerceSupport (c : Cell) : ℚ :=
  match c with
  | .absent => 0
  | .num q => q
  | .text s => (parseNum? s).getD 0

/-- The in-loop handling of one support value (lines 264-274) applied to the
already coerced number: NaN, empty string and zero become zero, any other
value converts to itself.  On a coerced rational this only renames zero. -/
def inLoopSupport (q : ℚ) : ℚ := if q = 0 then 0 else q

/-- Resolved monthly support of one beneficiary cell. -/
def resolveSupport (c : Cell) : ℚ := inLoopSupport (coerceSupport c)

/-- One beneficiary row as the loop reads it: the name cell, the declared
contributor cell, and the raw monthly support cell. -/
structure WidowRow where
  name : Option String
  donor : Option String
  support : Cell
  deriving DecidableEq

/-- One rendered relationship edge: from matched donor to widow, labelled by
the resolved monthly support amount (the label string only formats it). -/
structure NSEdge where
  src : String
  tgt : String
  amount : ℚ
  deriving DecidableEq

/-- The four mutable collections of the classification loop. -/
structure NSState where
  connectedDonors : List String
  connectedWidows : List String
  unconnectedWidows : List String
  edges : List NSEdge
  deriving DecidableEq

/-- Python set.add on the insertion-ordered embedding of a set. -/
def setInsert (l : List String) (s : String) : List String :=
  if l.contains s then l else l ++ [s]

/-- Record one widow as unconnected (line 337). -/
def addUnconnectedWidow (st : NSState) (w : String) : NSState :=
  { st with unconnectedWidows := setInsert st.unconnectedWidows w }

/-- The matched donor of one row: matched_donor stays None when the declared
contributor cell is missing (the matching block sits under a pd.notna guard),
otherwise the fuzzy matcher runs on the declared name. -/
def rowMatched (allDonors : List String) (row : WidowRow) : Option String :=
  match row.donor with
  | none => none
  | some d => fuzzyMatch d allDonors

/-- One iteration of the classification loop (dashboard_sections.py lines
258-337).  Rows with a missing name are skipped.  The connected branch is
guarded by the Python truthiness test on matched_donor and by the support
comparison: a matched empty string is falsy in Python, so the test m ≠ "" is
part of the faithful translation of the line
if matched_donor and monthly_support > 0. -/
def nsStep (allDonors : List String) (st : NSState) (row : WidowRow) : NSState :=
  match row.name with
  | none => st
  | some w =>
    let ms := resolveSupport row.support
    match rowMatched allDonors row with
    | some m =>
      if m ≠ "" ∧ 0 < ms then
        { st with
          connectedDonors := setInsert st.connectedDonors m
          connectedWidows := setInsert st.connectedWidows w
          edges := st.edges ++ [⟨m, w, ms⟩] }
      else addUnconnectedWidow st w
    | none => addUnconnectedWidow st w

/-- Code-point lexicographic order on character lists: the order Python uses
to compare strings. -/
def lexLe : List Char → List Char → Bool
  | [], _ => true
  | _ :: _, [] => false
  | a :: as, b :: bs =>
    if a.toNat < b.toNat then true
    else if b.toNat < a.toNat then false
    else lexLe as bs

/-- Python string comparison. -/
def pyStrLe (s t : String) : Bool := lexLe s.toList t.toList

/-- Python string comparison as a decidable relation. -/
def strLe (s t : String) : Prop := pyStrLe s t = true

instance : DecidableRel strLe := fun s t => by unfold strLe; infer_instance

/-- Python sorted(...) over strings: a stable sort by the code-point order;
for a total order the result depends only on the multiset of elements. -/
def pySorted (l : List String) : List String := List.insertionSort strLe l

/-- One node dictionary of the network view (lines 356-388). -/
structure NSNode where
  id : String
  label : String
  group : String
  title : String
  deriving DecidableEq

/-- Build a node dictionary for one name in one group. -/
def mkNSNode (group title name : String) : NSNode := ⟨name, name, group, title⟩

/-- The outcome of one run of the resolution part of create_network_section:
the three loop sets, the derived unconnected donors (a set the source only
consumes through sorted, so it is stored sorted), the node list and the edge
list. -/
structure NSResult where
  connectedDonors : List String
  connectedWidows : List String
  unconnectedWidows : List String
  unconnectedDonors : List String
  nodes : List NSNode
  edges : List NSEdge
  deriving DecidableEq

/-- The loop starts with all four collections empty. -/
def nsInit : NSState := ⟨[], [], [], []⟩

/-- The resolution pipeline given the candidate set in one fixed iteration
order.  The candidate set all_donors is a Python set, whose iteration order is
an artefact; it is made explicit here as the order of the allDonors list. -/
def createNetworkSectionWith (allDonors : List String) (widows : List WidowRow) :
    NSResult :=
  let st := widows.foldl (nsStep allDonors) nsInit
  let unconnD := pySorted (allDonors.filter (fun d => !st.connectedDonors.contains d))
  let nodes :=
    (pySorted st.unconnectedWidows).map (mkNSNode "widow_unconnected" "אלמנה ללא קשר") ++
    (pySorted st.connectedDonors).map (mkNSNode "donor_connected" "תורם מחובר") ++
    (pySorted st.connectedWidows).map (mkNSNode "widow_connected" "אלמנה מחוברת") ++
    unconnD.map (mkNSNode "donor_unconnected" "תורם ללא קשר")
  ⟨st.connectedDonors, st.connectedWidows, st.unconnectedWidows, unconnD, nodes, st.edges⟩

/-- The candidate donor set (dashboard_sections.py lines 232-248): every
non-missing name from the donations table and then the investors table,
stripped, inserted into a set; insertion order is the canonical iteration
order used by `createNetworkSection`. -/
def buildAllDonors (donationNames investorNames : List (Option String)) : List String :=
  ((donationNames.filterMap id) ++ (investorNames.filterMap id)).foldl
    (fun s n => setInsert s (pyStrip n)) []

/-- The resolution pipeline with the canonical candidate iteration order. -/
def createNetworkSection (donationNames investorNames : List (Option String))
    (widows : List WidowRow) : NSResult :=
  createNetworkSectionWith (buildAllDonors donationNames investorNames) widows

/-- What the view does after assembling nodes and edges. -/
inductive NetworkView where
  | rendered
  | noData
  deriving DecidableEq

/-- The render decision (dashboard_sections.py lines 390-391 and 535-536):
the graph is rendered only when both lists are non-empty, otherwise the
no-data message is shown. -/
def networkOutcome (r : NSResult) : NetworkView :=
  if r.nodes ≠ [] ∧ r.edges ≠ [] then .rendered else .noData

/-! ## The graph builder (src/modules/graph_builder.py)

Tables are frames: a list of column names plus rows of (column, cell) pairs.
Looking up a column that is not there raises a KeyError, which the model
expresses as an `Except String` failure; a present column with a missing value
is `Cell.absent` (NaN/NaT).  A ragged row models a malformed record. -/

/-- A loaded table. -/
structure Frame where
  cols : List String
  rows : List (List (String × Cell))
  deriving DecidableEq

/-- Value of one cell of a row; a missing entry reads as NaN, as it does in a
rectangular pandas frame. -/
def getCell (r : List (String × Cell)) (c : String) : Cell :=
  (r.lookup c).getD .absent

/-- Series-style access row[c] as in the iterrows loop: a missing key raises. -/
def rowGet (r : List (String × Cell)) (c : String) : Except String Cell :=
  match r.lookup c with
  | some v => .ok v
  | none => .error ("KeyError: " ++ c)

/-- Frame-level column access guard: df[c] raises when c is not a column. -/
def colGuard (f : Frame) (c : String) : Except String Unit :=
  if f.cols.contains c then .ok () else .error ("KeyError: " ++ c)

/-- The donation-table cleaning (graph_builder.py lines 29-31): dropna on the
donor-name column, then drop empty names, then drop whitespace-only names.
Rows whose name cell is not text take no part (the loaded-data contract says
donor names are text). -/
def keepDonationRow (r : List (String × Cell)) : Bool :=
  match getCell r "שם התורם" with
  | .text s => s ≠ "" && pyStrip s ≠ ""
  | _ => false

/-- Cleaned donation rows; fails when the donor-name column is missing. -/
def cleanDonations (donations : Frame) : Except String (List (List (String × Cell))) := do
  let _ ← colGuard donations "שם התורם"
  pure (donations.rows.filter keepDonationRow)

/-- The donor name of a cleaned donation row. -/
def donationName (r : List (String × Cell)) : String :=
  match getCell r "שם התורם" with
  | .text s => s
  | _ => ""

/-- pandas unique(): first occurrences in order. -/
def dedupFirst (l : List String) : List String := l.foldl setInsert []

/-- max(values) if the dict is non-empty else 0 (line 45), on counts. -/
def maxConnections (dc : List (String × ℕ)) : ℕ :=
  (dc.map Prod.snd).foldl max 0

/-- connection_size_mapping.get(count, 20): the mapping is built for counts
1..max with base 20 plus 4 per connection (lines 44-50, 63). -/
def connectionNodeSize (maxConn count : ℕ) : ℕ :=
  if 1 ≤ count ∧ count ≤ maxConn then 20 + count * 4 else 20

/-- A node position: either the i-th of n points on the circle of radius 200
around the origin, or literal coordinates.  The circle coordinates involve
trigonometry on floats, so the builder stores the construction and the real
interpretation below evaluates it. -/
inductive Pos where
  | circle (i n : ℕ)
  | line (x y : ℤ)
  deriving DecidableEq

/-- One graph node as built by graph_builder.py. -/
structure GBNode where
  id : String
  label : String
  size : ℕ
  color : String
  shape : String
  pos : Pos
  deriving DecidableEq

/-- The x coordinate: center_x + radius * cos(angle) with center 0, radius
200 and angle = i / n * 2 * 3.14159 (lines 65-68), or the literal x. -/
noncomputable def posX : Pos → ℝ
  | .circle i n => 0 + 200 * Real.cos ((i : ℝ) / (n : ℝ) * (2 * 3.14159))
  | .line x _ => (x : ℝ)

/-- The y coordinate, symmetrically with sin. -/
noncomputable def posY : Pos → ℝ
  | .circle i n => 0 + 200 * Real.sin ((i : ℝ) / (n : ℝ) * (2 * 3.14159))
  | .line _ y => (y : ℝ)

/-- The connected-donor loop (lines 58-80): the i-th connected donor gets a
blue circle node on the circle, sized by its connection count. -/
def circleDonorNodes (dc : List (String × ℕ)) (maxConn n : ℕ) :
    ℕ → List String → List GBNode
  | _, [] => []
  | i, d :: ds =>
    ⟨"donor_" ++ d, d, connectionNodeSize maxConn ((dc.lookup d).getD 1),
      "#2563eb", "circle", .circle i n⟩ :: circleDonorNodes dc maxConn n (i + 1) ds

/-- A vertical-line loop (lines 85-99, 119-133, 138-152): the i-th entity of
n sits at the fixed x with y = i * 40 - n * 20. -/
def lineNodes (idPre : String) (size : ℕ) (color shape : String) (x : ℤ) (n : ℕ) :
    ℕ → List String → List GBNode
  | _, [] => []
  | i, w :: ws =>
    ⟨idPre ++ w, w, size, color, shape, .line x ((i : ℤ) * 40 - (n : ℤ) * 20)⟩ ::
      lineNodes idPre size color shape x n (i + 1) ws

/-- Widow names from the name column (line 102): the unique text names; a
missing or non-text cell names no widow. -/
def widowNames (cells : List Cell) : List String :=
  dedupFirst (cells.filterMap (fun c => match c with | .text s => some s | _ => none))

/-- Lines 108-114: the widows whose mapped donor actually has donations. -/
def actualConnectedWidows (mapping : List (String × String)) (donors : List String) :
    List String :=
  dedupFirst ((mapping.filter (fun p => donors.contains p.2)).map Prod.fst)

/-- Sort key of a date cell: a datetime is its ordinal, NaT is absent; an
object-typed date column would raise on comparison during the sort. -/
def dateKeyE (c : Cell) : Except String (Option ℚ) :=
  match c with
  | .num q => .ok (some q)
  | .absent => .ok none
  | .text _ => .error "TypeError: unordered types"

/-- Key comparison with NaT below every date: under a descending sort this
puts NaT last, which is what sort_values with na_position last does. -/
def dLe (a b : Option ℚ) : Bool :=
  match a, b with
  | none, _ => true
  | some _, none => false
  | some x, some y => decide (x ≤ y)

/-- Descending insertion by the date key.  Together with `sortDesc` below
this realises one concrete descending order with NaT last; the source sorts
with the pandas default quicksort, which is not stable, so the relative order
of rows sharing a date is unspecified there, and no theorem of this file
depends on which of several tied rows comes first. -/
def insDesc {α : Type} (x : α × Option ℚ) :
    List (α × Option ℚ) → List (α × Option ℚ)
  | [] => [x]
  | y :: ys => if dLe y.2 x.2 then x :: y :: ys else y :: insDesc x ys

/-- sort_values(ascending=False) by the date key with NaT last, realised as
one concrete executable descending order (see `insDesc` on the unspecified
tie order of the source sort). -/
def sortDesc {α : Type} : List (α × Option ℚ) → List (α × Option ℚ)
  | [] => []
  | x :: xs => insDesc x (sortDesc xs)

/-- iloc[0] of the sorted donations (line 163); the source guards the call by
a non-empty check, so the error branch is unreachable there. -/
def pickLastRow {α : Type} (keyed : List (α × Option ℚ)) :
    Except String (α × Option ℚ) :=
  match sortDesc keyed with
  | [] => .error "IndexError: empty frame"
  | x :: _ => .ok x

/-- Numeric value of the amount cell as the division on line 166 sees it: a
number is itself, NaN propagates, text raises a TypeError. -/
def cellPyNum (c : Cell) : Except String (Option ℚ) :=
  match c with
  | .num q => .ok (some q)
  | .absent => .ok none
  | .text _ => .error "TypeError: str division"

/-- Python min(8, k): comparison with NaN is false, so min(8, NaN) keeps 8. -/
def pyMin8 (x : Option ℚ) : ℚ :=
  match x with
  | none => 8
  | some q => min 8 q

/-- Edge width (lines 166-167): max(1, min(8, amount / 1000 / 10)). -/
def gbEdgeWidth (amount : Option ℚ) : ℚ :=
  max 1 (pyMin8 ((amount.map (fun q => q / 1000)).map (fun k => k / 10)))

/-- The yellow colour of the 1000 tier. -/
def edge_color_1000 : String := "#fbbf24"

/-- The blue colour of the 2000 tier. -/
def edge_color_2000 : String := "#2563eb"

/-- The grey colour of every other amount. -/
def edge_color_other : String := "#a3a3a3"

/-- Edge colour tier (lines 169-174): exact equality with 1000, then with
2000, otherwise the other tier; NaN equals neither. -/
def gbEdgeColor (amount : Option ℚ) : String :=
  match amount with
  | some q =>
    if q = 1000 then edge_color_1000
    else if q = 2000 then edge_color_2000
    else edge_color_other
  | none => edge_color_other

/-- One graph edge (lines 176-184).  amount and date are the values the edge
title string renders; the title formatting itself is presentational. -/
structure GBEdge where
  source : String
  target : String
  color : String
  width : ℚ
  amount : Option ℚ
  date : Option ℚ
  deriving DecidableEq

/-- Key of a cell used for dictionary membership (line 160): only a text cell
can equal a string key; NaN is in no dictionary. -/
def cellAsKey (c : Cell) : Option String :=
  match c with
  | .text s => some s
  | _ => none

/-- Build the edge for one qualifying pair (lines 161-184): filter the cleaned
donations by donor name; with no donation rows there is no edge; otherwise
sort by date descending, take the first row, and derive width and colour from
its amount.  Accessing the date column, comparing object dates, or dividing a
text amount raises. -/
def mkGBEdge (cleaned : List (List (String × Cell))) (hasDateCol : Bool)
    (donorStr widowStr : String) : Except String (Option GBEdge) :=
  let dd := cleaned.filter (fun r => getCell r "שם התורם" == Cell.text donorStr)
  if dd.isEmpty then
    .ok none
  else if !hasDateCol then
    .error "KeyError: תאריך"
  else
    match dd.mapM (fun r => (dateKeyE (getCell r "תאריך")).map (fun k => (r, k))) with
    | .error e => .error e
    | .ok keyed =>
      match pickLastRow keyed with
      | .error e => .error e
      | .ok last =>
        match rowGet last.1 "סכום" with
        | .error e => .error e
        | .ok amtCell =>
          match cellPyNum amtCell with
          | .error e => .error e
          | .ok amt =>
            .ok (some ⟨"donor_" ++ donorStr, "widow_" ++ widowStr, gbEdgeColor amt,
              gbEdgeWidth amt, amt, last.2⟩)

/-- The edge loop (lines 154-185) over the real-widows rows: read the widow
and donor cells of each row (a missing key raises), keep the pair only when
both are node-dictionary keys, and append one edge per qualifying row while
counting it. -/
def edgeLoop (cleaned : List (List (String × Cell))) (hasDateCol : Bool)
    (donorKeys widowKeys : List String) :
    List (List (String × Cell)) → List GBEdge → ℕ → Except String (List GBEdge × ℕ)
  | [], es, c => .ok (es, c)
  | r :: rs, es, c =>
    match rowGet r "שם " with
    | .error e => .error e
    | .ok wn =>
      match rowGet r "תורם" with
      | .error e => .error e
      | .ok dn =>
        match cellAsKey dn, cellAsKey wn with
        | some ds, some ws =>
          if donorKeys.contains ds && widowKeys.contains ws then
            match mkGBEdge cleaned hasDateCol ds ws with
            | .error e => .error e
            | .ok (some ed) =>
              edgeLoop cleaned hasDateCol donorKeys widowKeys rs (es ++ [ed]) (c + 1)
            | .ok none => edgeLoop cleaned hasDateCol donorKeys widowKeys rs es c
          else
            edgeLoop cleaned hasDateCol donorKeys widowKeys rs es c
        | _, _ => edgeLoop cleaned hasDateCol donorKeys widowKeys rs es c

/-- One produced snapshot: nodes, edges and the connection count. -/
structure GBResult where
  nodes : List GBNode
  edges : List GBEdge
  count : ℕ
  deriving DecidableEq

/-- The body of create_network_graph (lines 16-187), before the exception
boundary.  Set iteration order is modelled as insertion order. -/
def gbBody (donations widows_df : Frame) (widowToDonor : List (String × String))
    (donorConnections : List (String × ℕ)) (realWidows : Frame) :
    Except String GBResult :=
  match cleanDonations donations with
  | .error e => .error e
  | .ok cleaned =>
    match colGuard widows_df "שם " with
    | .error e => .error e
    | .ok _ =>
      let donors := dedupFirst (cleaned.map donationName)
      let withConn := (dedupFirst (donorConnections.map Prod.fst)).filter
        (fun k => k ≠ "nan" && donors.contains k)
      let withoutConn := donors.filter (fun d => !withConn.contains d)
      let maxConn := maxConnections donorConnections
      let widows := widowNames (widows_df.rows.map (fun r => getCell r "שם "))
      let connW := actualConnectedWidows widowToDonor donors
      let unconnW := widows.filter (fun w => !connW.contains w)
      let nodes :=
        circleDonorNodes donorConnections maxConn withConn.length 0 withConn ++
        lineNodes "donor_" 20 "#9ca3af" "circle" (-600) withoutConn.length 0 withoutConn ++
        lineNodes "widow_" 25 "#f43f5e" "square" 600 connW.length 0 connW ++
        lineNodes "widow_" 20 "#9ca3af" "square" 800 unconnW.length 0 unconnW
      match edgeLoop cleaned (donations.cols.contains "תאריך")
        (withConn ++ withoutConn) (connW ++ unconnW) realWidows.rows [] 0 with
      | .error e => .error e
      | .ok (edges, count) => .ok ⟨nodes, edges, count⟩

/-- create_network_graph with its catch-all exception boundary (lines 15 and
189-191): any raised error yields the empty snapshot instead of escaping. -/
def create_network_graph (donations widows_df : Frame)
    (widowToDonor : List (String × String)) (donorConnections : List (String × ℕ))
    (realWidows : Frame) : GBResult :=
  match gbBody donations widows_df widowToDonor donorConnections realWidows with
  | .ok r => r
  | .error _ => ⟨[], [], 0⟩

/-! ## Helper lemmas -/

theorem lexLe_total (a b : List Char) : lexLe a b = true ∨ lexLe b a = true := by
  induction a generalizing b with
  | nil => left; rfl
  | cons x xs ih =>
    cases b with
    | nil => right; rfl
    | cons y ys =>
      by_cases h1 : x.toNat < y.toNat
      · left; simp [lexLe, h1]
      · by_cases h2 : y.toNat < x.toNat
        · right; simp [lexLe, h2]
        · rcases ih ys with h | h
          · left; simp [lexLe, h1, h2, h]
          · right; simp [lexLe, h1, h2, h]

theorem lexLe_trans (a b c : List Char) (hab : lexLe a b = true) (hbc : lexLe b c = true) :
    lexLe a c = true := by
  induction a generalizing b c with
  | nil => rfl
  | cons x xs ih =>
    cases b with
    | nil => simp [lexLe] at hab
    | cons y ys =>
      cases c with
      | nil => simp [lexLe] at hbc
      | cons z zs =>
        by_cases hxy : x.toNat < y.toNat <;> by_cases hyx : y.toNat < x.toNat <;>
          by_cases hyz : y.toNat < z.toNat <;> by_cases hzy : z.toNat < y.toNat <;>
            simp [lexLe, hxy, hyx, hyz, hzy] at hab hbc ⊢ <;>
              first
                | omega
                | (constructor <;> omega)
                | (exact ih ys zs hab hbc)
                | (left; omega)
                | (right; exact ⟨by omega, ih ys zs hab hbc⟩)

theorem lexLe_antisymm (a b : List Char) (hab : lexLe a b = true) (hba : lexLe b a = true) :
    a = b := by
  induction a generalizing b with
  | nil =>
    cases b with
    | nil => rfl
    | cons y ys => simp [lexLe] at hba
  | cons x xs ih =>
    cases b with
    | nil => simp [lexLe] at hab
    | cons y ys =>
      by_cases hxy : x.toNat < y.toNat
      · simp [lexLe, hxy, Nat.lt_asymm hxy] at hba
      · by_cases hyx : y.toNat < x.toNat
        · simp [lexLe, hxy, hyx] at hab
        · simp [lexLe, hxy, hyx] at hab hba
          have hx : x = y := Char.ext (UInt32.ext (by
            simp only [Char.toNat] at hxy hyx
            omega))
          rw [hx, ih ys hab hba]

instance : IsTotal String strLe :=
  ⟨fun s t => lexLe_total s.toList t.toList⟩

instance : IsTrans String strLe :=
  ⟨fun a b c => lexLe_trans a.toList b.toList c.toList⟩

theorem toList_inj {s t : String} (h : s.toList = t.toList) : s = t := by
  cases s
  cases t
  exact congrArg String.mk (by simpa [String.toList] using h)

instance : IsAntisymm String strLe :=
  ⟨fun a b hab hba => toList_inj (lexLe_antisymm a.toList b.toList hab hba)⟩

theorem pySorted_eq_of_perm {l₁ l₂ : List String} (h : l₁.Perm l₂) :
    pySorted l₁ = pySorted l₂ :=
  List.eq_of_perm_of_sorted
    ((List.perm_insertionSort strLe l₁).trans (h.trans (List.perm_insertionSort strLe l₂).symm))
    (List.sorted_insertionSort strLe l₁) (List.sorted_insertionSort strLe l₂)

theorem fuzzyMatch_of_exact {d : String} {cands : List String} (h : pyStrip d ∈ cands) :
    fuzzyMatch d cands = some (pyStrip d) := by
  simp [fuzzyMatch]
  exact fun hn => absurd h hn

theorem contains_eq_of_perm {l₁ l₂ : List String} (h : l₁.Perm l₂) (s : String) :
    l₁.contains s = l₂.contains s := by
  simp [List.contains, List.elem_eq_mem, h.mem_iff]

theorem find?_none_of_perm {α : Type} {p : α → Bool} {l₁ l₂ : List α} (h : l₁.Perm l₂)
    (hn : l₁.find? p = none) : l₂.find? p = none := by
  rw [List.find?_eq_none] at hn ⊢
  intro x hx
  exact hn x (h.mem_iff.mpr hx)

theorem fuzzyScan_none_of_perm {l₁ l₂ : List String} (h : l₁.Perm l₂) (d : String)
    (hn : fuzzyScan d l₁ = none) : fuzzyScan d l₂ = none := by
  unfold fuzzyScan at hn ⊢
  split at hn
  · simp at hn
  · next h1 =>
    split at hn
    · simp at hn
    · next h2 =>
      simp [find?_none_of_perm h h1, find?_none_of_perm h h2, find?_none_of_perm h hn]

theorem fuzzyMatch_eq_of_perm {l₁ l₂ : List String} (h : l₁.Perm l₂) (d : String)
    (hd : pyStrip d ∈ l₁ ∨ fuzzyMatch d l₁ = none) :
    fuzzyMatch d l₂ = fuzzyMatch d l₁ := by
  rcases hd with hm | hn
  · rw [fuzzyMatch_of_exact hm, fuzzyMatch_of_exact (h.mem_iff.mp hm)]
  · unfold fuzzyMatch at hn ⊢
    cases hx : l₁.contains (pyStrip d) with
    | true =>
      have hm : pyStrip d ∈ l₁ := by simpa [List.contains, List.elem_eq_mem] using hx
      simp [hm] at hn
    | false =>
      have hx2 : l₂.contains (pyStrip d) = false := by
        rw [← contains_eq_of_perm h]
        exact hx
      simp only [hx, hx2, Bool.false_eq_true, if_false] at hn ⊢
      rw [hn]
      exact fuzzyScan_none_of_perm h (pyStrip d) hn

theorem nsStep_eq_of_perm {o1 o2 : List String} (h : o1.Perm o2) (st : NSState)
    (row : WidowRow) (hs : (match row.donor with
      | none => true
      | some d => o1.contains (pyStrip d) || (fuzzyMatch d o1).isNone) = true) :
    nsStep o2 st row = nsStep o1 st row := by
  obtain ⟨nm, dn, sp⟩ := row
  cases dn with
  | none => rfl
  | some d =>
    have hd : pyStrip d ∈ o1 ∨ fuzzyMatch d o1 = none := by
      rcases (by simpa using hs :
          o1.contains (pyStrip d) = true ∨ (fuzzyMatch d o1).isNone = true) with h1 | h1
      · exact Or.inl (by simpa [List.contains, List.elem_eq_mem] using h1)
      · exact Or.inr (Option.isNone_iff_eq_none.mp h1)
    have hfm := fuzzyMatch_eq_of_perm h d hd
    simp only [nsStep, rowMatched, hfm]

theorem foldl_nsStep_eq_of_perm {o1 o2 : List String} (h : o1.Perm o2) :
    ∀ (widows : List WidowRow) (st : NSState),
      (∀ row ∈ widows, (match row.donor with
        | none => true
        | some d => o1.contains (pyStrip d) || (fuzzyMatch d o1).isNone) = true) →
      widows.foldl (nsStep o2) st = widows.foldl (nsStep o1) st := by
  intro widows
  induction widows with
  | nil => intro st _; rfl
  | cons r rs ih =>
    intro st hs
    rw [List.foldl_cons, List.foldl_cons, nsStep_eq_of_perm h st r (hs r (by simp)),
      ih _ (fun row hrow => hs row (List.mem_cons_of_mem _ hrow))]

def endpointOk (donorKeys widowKeys : List String) (e : GBEdge) : Prop :=
  (∃ ds ∈ donorKeys, e.source = "donor_" ++ ds) ∧ ∃ ws ∈ widowKeys, e.target = "widow_" ++ ws

theorem mkGBEdge_shape {cleaned : List (List (String × Cell))} {hd : Bool}
    {ds ws : String} {e : GBEdge} (h : mkGBEdge cleaned hd ds ws = .ok (some e)) :
    e.source = "donor_" ++ ds ∧ e.target = "widow_" ++ ws := by
  simp only [mkGBEdge] at h
  repeat' split at h
  all_goals simp_all
  subst h
  exact ⟨rfl, rfl⟩

theorem edgeLoop_endpointOk (cleaned : List (List (String × Cell))) (hd : Bool)
    (dk wk : List String) :
    ∀ (rows : List (List (String × Cell))) (es : List GBEdge) (c : ℕ)
      (res : List GBEdge × ℕ),
      edgeLoop cleaned hd dk wk rows es c = .ok res →
      (∀ e ∈ es, endpointOk dk wk e) → ∀ e ∈ res.1, endpointOk dk wk e := by
  intro rows
  induction rows with
  | nil =>
    intro es c res h hinv
    simp only [edgeLoop, Except.ok.injEq] at h
    rw [← h]
    exact hinv
  | cons r rs ih =>
    intro es c res h hinv
    unfold edgeLoop at h
    split at h
    · simp at h
    · split at h
      · simp at h
      · split at h
        · next ds ws hds hws =>
          split at h
          · next hcond =>
            split at h
            · simp at h
            · next ed hmk =>
              refine ih (es ++ [ed]) (c + 1) res h ?_
              intro e he
              rcases List.mem_append.mp he with h1 | h1
              · exact hinv e h1
              · have hee : e = ed := by simpa using h1
                subst hee
                obtain ⟨hsrc, htgt⟩ := mkGBEdge_shape hmk
                have hpair : ds ∈ dk ∧ ws ∈ wk := by
                  simpa [List.contains, List.elem_eq_mem] using hcond
                exact ⟨⟨ds, hpair.1, hsrc⟩, ⟨ws, hpair.2, htgt⟩⟩
            · exact ih es c res h hinv
          · exact ih es c res h hinv
        · exact ih es c res h hinv

theorem mem_id_circleDonorNodes (dc : List (String × ℕ)) (mc n : ℕ) :
    ∀ (i : ℕ) (l : List String) (s : String), s ∈ l →
      ("donor_" ++ s) ∈ (circleDonorNodes dc mc n i l).map GBNode.id := by
  intro i l
  induction l generalizing i with
  | nil => intro s h; cases h
  | cons a as ih =>
    intro s h
    rcases List.mem_cons.mp h with rfl | h2
    · simp [circleDonorNodes]
    · simp only [circleDonorNodes, List.map_cons, List.mem_cons]
      exact Or.inr (ih (i + 1) s h2)

theorem mem_id_lineNodes (idPre : String) (sz : ℕ) (color shape : String) (x : ℤ) (n : ℕ) :
    ∀ (i : ℕ) (l : List String) (s : String), s ∈ l →
      (idPre ++ s) ∈ (lineNodes idPre sz color shape x n i l).map GBNode.id := by
  intro i l
  induction l generalizing i with
  | nil => intro s h; cases h
  | cons a as ih =>
    intro s h
    rcases List.mem_cons.mp h with rfl | h2
    · simp [lineNodes]
    · simp only [lineNodes, List.map_cons, List.mem_cons]
      exact Or.inr (ih (i + 1) s h2)

theorem gbBody_endpoints {donations widows_df : Frame} {wtd : List (String × String)}
    {dc : List (String × ℕ)} {realWidows : Frame} {r : GBResult}
    (h : gbBody donations widows_df wtd dc realWidows = .ok r) :
    ∀ e ∈ r.edges,
      e.source ∈ r.nodes.map GBNode.id ∧ e.target ∈ r.nodes.map GBNode.id := by
  simp only [gbBody] at h
  split at h
  · simp at h
  · next cleaned hclean =>
    split at h
    · simp at h
    · split at h
      · simp at h
      · next edges count hloop =>
        simp only [Except.ok.injEq] at h
        subst h
        intro e he
        have hep := edgeLoop_endpointOk cleaned (donations.cols.contains "תאריך") _ _
          realWidows.rows [] 0 (edges, count) hloop (by intro e h; cases h) e he
        obtain ⟨⟨ds, hds, hsrc⟩, ⟨ws, hws, htgt⟩⟩ := hep
        constructor
        · rw [hsrc]
          simp only [List.map_append, List.mem_append]
          rcases List.mem_append.mp hds with h1 | h1
          · exact Or.inl (Or.inl (Or.inl (mem_id_circleDonorNodes _ _ _ 0 _ ds h1)))
          · exact Or.inl (Or.inl (Or.inr (mem_id_lineNodes _ _ _ _ _ _ 0 _ ds h1)))
        · rw [htgt]
          simp only [List.map_append, List.mem_append]
          rcases List.mem_append.mp hws with h1 | h1
          · exact Or.inl (Or.inr (mem_id_lineNodes _ _ _ _ _ _ 0 _ ws h1))
          · exact Or.inr (mem_id_lineNodes _ _ _ _ _ _ 0 _ ws h1)

theorem posX_circle_bounds (i n : ℕ) :
    -200 ≤ posX (.circle i n) ∧ posX (.circle i n) ≤ 200 := by
  simp only [posX]
  constructor
  · nlinarith [Real.neg_one_le_cos ((i : ℝ) / (n : ℝ) * (2 * 3.14159))]
  · nlinarith [Real.cos_le_one ((i : ℝ) / (n : ℝ) * (2 * 3.14159))]

theorem circleDonorNodes_pos (dc : List (String × ℕ)) (maxConn n : ℕ) :
    ∀ (i : ℕ) (l : List String) (node : GBNode),
      node ∈ circleDonorNodes dc maxConn n i l → ∃ j, node.pos = .circle j n := by
  intro i l
  induction l generalizing i with
  | nil => intro node h; cases h
  | cons a as ih =>
    intro node h
    rcases List.mem_cons.mp h with rfl | h2
    · exact ⟨i, rfl⟩
    · exact ih (i + 1) node h2

theorem lineNodes_pos (idPre : String) (sz : ℕ) (color shape : String) (x : ℤ) (n : ℕ) :
    ∀ (i : ℕ) (l : List String) (node : GBNode),
      node ∈ lineNodes idPre sz color shape x n i l → ∃ y, node.pos = .line x y := by
  intro i l
  induction l generalizing i with
  | nil => intro node h; cases h
  | cons a as ih =>
    intro node h
    rcases List.mem_cons.mp h with rfl | h2
    · exact ⟨_, rfl⟩
    · exact ih (i + 1) node h2

theorem lineNodes_get_pos (idPre : String) (sz : ℕ) (color shape : String) (x : ℤ) (n : ℕ) :
    ∀ (i : ℕ) (l : List String) (j : ℕ)
      (h : j < (lineNodes idPre sz color shape x n i l).length),
      ((lineNodes idPre sz color shape x n i l).get ⟨j, h⟩).pos =
        .line x (((i : ℤ) + (j : ℤ)) * 40 - (n : ℤ) * 20) := by
  intro i l
  induction l generalizing i with
  | nil => intro j h; simp [lineNodes] at h
  | cons a as ih =>
    intro j h
    cases j with
    | zero => simp [lineNodes]
    | succ k =>
      have hk : k < (lineNodes idPre sz color shape x n (i + 1) as).length := by
        simpa [lineNodes] using Nat.lt_of_succ_lt_succ (by simpa [lineNodes] using h)
      have := ih (i + 1) k hk
      simp only [lineNodes, List.get_cons_succ]
      rw [this]
      congr 1
      push_cast
      ring

/-! ## The claims -/

/-- C1 (amended).  Zero-support exclusion holds as stated: a beneficiary row
whose resolved monthly support is not positive is added to the unconnected
set and contributes no edge, even when the declared contributor matches.  The
connected direction has to account for Python truthiness: the row is
classified connected, with an edge appended, exactly when the matcher returns
a candidate that is non-empty as a string and the resolved support is
strictly positive; a matched empty-string candidate is falsy and the row is
classified unconnected. -/
theorem beneficiary_connected_iff (allDonors : List String) (st : NSState)
    (w : String) (dn : Option String) (sp : Cell) :
    (resolveSupport sp ≤ 0 →
      nsStep allDonors st ⟨some w, dn, sp⟩ = addUnconnectedWidow st w) ∧
    (rowMatched allDonors ⟨some w, dn, sp⟩ = none →
      nsStep allDonors st ⟨some w, dn, sp⟩ = addUnconnectedWidow st w) ∧
    (∀ m, rowMatched allDonors ⟨some w, dn, sp⟩ = some m →
      ((m = "" ∨ resolveSupport sp ≤ 0) →
        nsStep allDonors st ⟨some w, dn, sp⟩ = addUnconnectedWidow st w) ∧
      (m ≠ "" → 0 < resolveSupport sp →
        nsStep allDonors st ⟨some w, dn, sp⟩ = { st with
          connectedDonors := setInsert st.connectedDonors m
          connectedWidows := setInsert st.connectedWidows w
          edges := st.edges ++ [⟨m, w, resolveSupport sp⟩] })) := by
  refine ⟨?_, ?_, ?_⟩
  · intro hle
    simp only [nsStep]
    cases hm : rowMatched allDonors ⟨some w, dn, sp⟩ with
    | none => rfl
    | some m =>
      have hc : ¬(m ≠ "" ∧ 0 < resolveSupport sp) := fun hc => absurd hc.2 (not_lt.mpr hle)
      simp [hc]
  · intro hm
    simp only [nsStep, hm]
  · intro m hm
    constructor
    · intro hor
      have hc : ¬(m ≠ "" ∧ 0 < resolveSupport sp) := by
        rcases hor with he | hle
        · exact fun hc => hc.1 he
        · exact fun hc => absurd hc.2 (not_lt.mpr hle)
      simp only [nsStep, hm]
      simp [hc]
    · intro hne hpos
      simp only [nsStep, hm]
      simp [hne, hpos]

/-- Witness for C1: a row with support 100 whose declared donor matches the
single candidate exactly becomes connected with the expected edge. -/
theorem beneficiary_connected_iff_check :
    nsStep ["D"] nsInit ⟨some "W", some "D", Cell.num 100⟩ = { nsInit with
      connectedDonors := setInsert nsInit.connectedDonors "D"
      connectedWidows := setInsert nsInit.connectedWidows "W"
      edges := nsInit.edges ++ [⟨"D", "W", resolveSupport (Cell.num 100)⟩] } :=
  ((beneficiary_connected_iff ["D"] nsInit "W" (some "D") (Cell.num 100)).2.2 "D"
    (by decide)).2 (by decide) (by decide)

/-- Counterexample to C1 as stated.  The donations table holds one
whitespace-only donor name, so the candidate set holds the empty string; the
beneficiary declares a whitespace-only contributor, the exact tier matches
the empty-string candidate, and the resolved support 100 is positive, so the
claim as written calls this beneficiary connected.  The code classifies it
unconnected with no edge, because the matched empty string is falsy in the
test if matched_donor and monthly_support greater than 0. -/
theorem match_found_but_unconnected :
    rowMatched (buildAllDonors [some " "] []) ⟨some "W", some " ", Cell.num 100⟩ = some "" ∧
    (0 : ℚ) < resolveSupport (Cell.num 100) ∧
    (createNetworkSection [some " "] [] [⟨some "W", some " ", Cell.num 100⟩]).connectedWidows
      = [] ∧
    (createNetworkSection [some " "] [] [⟨some "W", some " ", Cell.num 100⟩]).unconnectedWidows
      = ["W"] ∧
    (createNetworkSection [some " "] [] [⟨some "W", some " ", Cell.num 100⟩]).edges = [] :=
  ⟨by decide, by decide, by decide, by decide, by decide⟩

/-- C2.  Exact-match priority: whenever the stripped query is itself one of
the candidates, the matcher returns exactly it, so no lower tier is consulted
and no other candidate can be returned. -/
theorem matcher_exact_tier_priority (d : String) (cands : List String)
    (h : pyStrip d ∈ cands) : fuzzyMatch d cands = some (pyStrip d) :=
  fuzzyMatch_of_exact h

/-- Witness for C2: the candidate list holds the substring hit abc before the
exact hit ab, and the matcher still returns ab. -/
theorem matcher_exact_tier_priority_check :
    pyStrip "ab" ∈ ["abc", "ab"] ∧ tierHit (pyStrip "ab") "abc" = true ∧
    fuzzyMatch "ab" ["abc", "ab"] = some (pyStrip "ab") :=
  ⟨by decide, by decide, matcher_exact_tier_priority "ab" ["abc", "ab"] (by decide)⟩

/-- C3.  The graph engine never lets an error escape: for every input the
wrapper either returns the successful body result or, for any failure of the
body (missing columns, malformed rows, type errors), the empty snapshot with
zero nodes, zero edges and connection count zero. -/
theorem graph_engine_error_boundary (donations widows_df : Frame)
    (widowToDonor : List (String × String)) (donorConnections : List (String × ℕ))
    (realWidows : Frame) :
    (∃ r, gbBody donations widows_df widowToDonor donorConnections realWidows = .ok r ∧
      create_network_graph donations widows_df widowToDonor donorConnections realWidows = r) ∨
    (∃ e, gbBody donations widows_df widowToDonor donorConnections realWidows = .error e ∧
      create_network_graph donations widows_df widowToDonor donorConnections realWidows =
        ⟨[], [], 0⟩) := by
  cases h : gbBody donations widows_df widowToDonor donorConnections realWidows with
  | ok r => exact Or.inl ⟨r, rfl, by simp [create_network_graph, h]⟩
  | error e => exact Or.inr ⟨e, rfl, by simp [create_network_graph, h]⟩

/-- C4 (amended).  For a fixed iteration order of the candidate set the
pipeline is a function, and the whole result is independent of that iteration
order whenever every declared contributor name either hits the exact tier or
misses every tier; in that case any two orders of the same candidate set give
the same nodes, edges and classifications. -/
theorem network_result_independent_of_candidate_order {o1 o2 : List String}
    (widows : List WidowRow) (hperm : o1.Perm o2)
    (hstable : ∀ row ∈ widows, (match row.donor with
      | none => true
      | some d => o1.contains (pyStrip d) || (fuzzyMatch d o1).isNone) = true) :
    createNetworkSectionWith o2 widows = createNetworkSectionWith o1 widows := by
  simp only [createNetworkSectionWith]
  rw [foldl_nsStep_eq_of_perm hperm widows nsInit hstable]
  rw [show pySorted (o2.filter
      (fun d => !(widows.foldl (nsStep o1) nsInit).connectedDonors.contains d)) =
    pySorted (o1.filter
      (fun d => !(widows.foldl (nsStep o1) nsInit).connectedDonors.contains d)) from
    (pySorted_eq_of_perm (hperm.filter _)).symm]

/-- Witness for C4: two orders of the same two-candidate set, one beneficiary
matching the exact tier, identical results. -/
theorem network_result_independent_of_candidate_order_check :
    createNetworkSectionWith ["E", "D"] [⟨some "W", some "D", Cell.num 5⟩] =
      createNetworkSectionWith ["D", "E"] [⟨some "W", some "D", Cell.num 5⟩] :=
  network_result_independent_of_candidate_order [⟨some "W", some "D", Cell.num 5⟩]
    (by decide) (by decide)

/-- Counterexample to C4 as stated.  The same candidate set iterated in two
orders: the query a hits the substring tier on both candidates, the first
encountered wins, and the produced edge sets differ, so unordered-collection
iteration does affect the resulting edge set. -/
theorem candidate_order_changes_result :
    (["ab", "abc"] : List String).Perm ["abc", "ab"] ∧
    (createNetworkSectionWith ["ab", "abc"] [⟨some "W", some "a", Cell.num 5⟩]).edges ≠
      (createNetworkSectionWith ["abc", "ab"] [⟨some "W", some "a", Cell.num 5⟩]).edges :=
  ⟨by decide, by decide⟩

/-- C10.  The view renders the network only when both the node list and the
edge list are non-empty; with at least one node but no edges the no-data
branch is taken instead. -/
theorem render_requires_nodes_and_edges (donationNames investorNames : List (Option String))
    (widows : List WidowRow) :
    (networkOutcome (createNetworkSection donationNames investorNames widows) = .rendered ↔
      (createNetworkSection donationNames investorNames widows).nodes ≠ [] ∧
        (createNetworkSection donationNames investorNames widows).edges ≠ []) ∧
    ((createNetworkSection donationNames investorNames widows).edges = [] →
      networkOutcome (createNetworkSection donationNames investorNames widows) = .noData) := by
  constructor
  · unfold networkOutcome
    by_cases h : (createNetworkSection donationNames investorNames widows).nodes ≠ [] ∧
        (createNetworkSection donationNames investorNames widows).edges ≠ []
    · simp [h]
    · simp [h]
  · intro he
    unfold networkOutcome
    rw [if_neg]
    intro hc
    exact hc.2 he

/-- Witness for C10: one donor, no beneficiaries; the node list is non-empty,
the edge list is empty, and the view shows the no-data message. -/
theorem render_requires_nodes_and_edges_check :
    (createNetworkSection [some "D"] [] []).nodes ≠ [] ∧
    networkOutcome (createNetworkSection [some "D"] [] []) = .noData :=
  ⟨by decide, (render_requires_nodes_and_edges [some "D"] [] []).2 (by decide)⟩

/-- C5 (amended).  Every edge of every produced snapshot joins a source and a
target that exist as node ids of the same snapshot: an edge is only created
for a pair whose donor and widow are keys of the node dictionaries, and every
key received a node.  The once-per-pair half of the claim is refuted
separately: the loop appends one edge per qualifying beneficiary row, so a
repeated row repeats the pair. -/
theorem edge_endpoints_are_nodes (donations widows_df : Frame)
    (wtd : List (String × String)) (dc : List (String × ℕ)) (realWidows : Frame) :
    ((create_network_graph donations widows_df wtd dc realWidows).edges.all (fun e =>
      ((create_network_graph donations widows_df wtd dc realWidows).nodes.map
        GBNode.id).contains e.source &&
      ((create_network_graph donations widows_df wtd dc realWidows).nodes.map
        GBNode.id).contains e.target)) = true := by
  unfold create_network_graph
  cases h : gbBody donations widows_df wtd dc realWidows with
  | error e => simp
  | ok r =>
    show (r.edges.all fun e =>
      (r.nodes.map GBNode.id).contains e.source &&
      (r.nodes.map GBNode.id).contains e.target) = true
    rw [List.all_eq_true]
    intro e he
    have hep := gbBody_endpoints h e he
    simp [List.contains, List.elem_eq_mem, hep.1, hep.2]

/-- Counterexample to C5 as stated.  One donor, one widow, and a real-widows
table holding the same (widow, donor) row twice: the render produces two
edges for the same (contributor, beneficiary) pair, not at most one. -/
theorem repeated_rows_create_duplicate_edges :
    ((create_network_graph
        ⟨["שם התורם", "סכום", "תאריך"],
          [[("שם התורם", Cell.text "D"), ("סכום", Cell.num 1000), ("תאריך", Cell.num 1)]]⟩
        ⟨["שם "], [[("שם ", Cell.text "W")]]⟩ [] []
        ⟨["שם ", "תורם"],
          [[("שם ", Cell.text "W"), ("תורם", Cell.text "D")],
           [("שם ", Cell.text "W"), ("תורם", Cell.text "D")]]⟩).edges.map
      (fun e => (e.source, e.target))) =
      [("donor_D", "widow_W"), ("donor_D", "widow_W")] := by
  decide

/-- C7.  The edge width is the amount divided by 1000 and then by 10, clamped
below at 1 and above at 8; it always lies in the closed interval from 1 to 8
(also for a missing amount), and the amount 1000 gives width exactly 1. -/
theorem edge_width_formula_and_clamped :
    (∀ q : ℚ, gbEdgeWidth (some q) = max 1 (min 8 (q / 1000 / 10))) ∧
    (∀ a : Option ℚ, 1 ≤ gbEdgeWidth a ∧ gbEdgeWidth a ≤ 8) ∧
    gbEdgeWidth (some 1000) = 1 := by
  refine ⟨fun q => rfl, fun a => ⟨le_max_left 1 _, ?_⟩, ?_⟩
  · cases a with
    | none => norm_num [gbEdgeWidth, pyMin8]
    | some q =>
      show max 1 (min 8 (q / 1000 / 10)) ≤ 8
      exact max_le (by norm_num) (min_le_left _ _)
  · show max 1 (min 8 ((1000 : ℚ) / 1000 / 10)) = 1
    norm_num [min_def, max_def]

/-- C8.  The colour tier is decided by exact equality: the 1000 colour is
assigned exactly for amount 1000, the 2000 colour exactly for amount 2000,
and every other amount, including amounts strictly between 1000 and 2000 and
above 2000 and the missing amount, gets the other tier.  There is no range
bucketing: the three colours are the only possible outcomes. -/
theorem edge_color_exact_tiers :
    (∀ q : ℚ, (gbEdgeColor (some q) = edge_color_1000 ↔ q = 1000) ∧
      (gbEdgeColor (some q) = edge_color_2000 ↔ q = 2000) ∧
      (gbEdgeColor (some q) = edge_color_1000 ∨ gbEdgeColor (some q) = edge_color_2000 ∨
        gbEdgeColor (some q) = edge_color_other)) ∧
    gbEdgeColor (some 1500) = edge_color_other ∧
    gbEdgeColor (some 2500) = edge_color_other ∧
    gbEdgeColor none = edge_color_other := by
  refine ⟨fun q => ?_, by decide, by decide, rfl⟩
  by_cases h1 : q = 1000 <;> by_cases h2 : q = 2000 <;>
    simp [gbEdgeColor, h1, h2, edge_color_1000, edge_color_2000, edge_color_other]

/-- C9 (amended).  Region separation holds: every circle node (connected
donors) has its x coordinate inside the closed interval from -200 to 200 and
so never equals the line abscissas -600, 600 or 800 of the three other
regions; every line node sits exactly at the x of its region; and within a
line region the j-th of n nodes has y equal to j times 40 minus n times 20,
so the vertical spacing is the uniform 40.  The centering half of the claim
is refuted separately: that formula centers each line region at -20, half a
spacing below the reference axis, not on it. -/
theorem layout_region_separation :
    (∀ (dc : List (String × ℕ)) (maxConn n i : ℕ) (l : List String) (node : GBNode),
        node ∈ circleDonorNodes dc maxConn n i l →
        -200 ≤ posX node.pos ∧ posX node.pos ≤ 200 ∧
        posX node.pos ≠ -600 ∧ posX node.pos ≠ 600 ∧ posX node.pos ≠ 800) ∧
    (∀ (idPre : String) (sz : ℕ) (color shape : String) (x : ℤ) (n i : ℕ)
        (l : List String) (node : GBNode),
        node ∈ lineNodes idPre sz color shape x n i l → posX node.pos = (x : ℝ)) ∧
    (∀ (idPre : String) (sz : ℕ) (color shape : String) (x : ℤ) (n i : ℕ)
        (l : List String) (j : ℕ)
        (h : j < (lineNodes idPre sz color shape x n i l).length),
        posY (((lineNodes idPre sz color shape x n i l).get ⟨j, h⟩).pos) =
          ((((i : ℤ) + (j : ℤ)) * 40 - (n : ℤ) * 20 : ℤ) : ℝ)) ∧
    ((-600 : ℝ) < -200 ∧ (200 : ℝ) < 600 ∧ (600 : ℝ) < 800) := by
  refine ⟨?_, ?_, ?_, by norm_num, by norm_num, by norm_num⟩
  · intro dc maxConn n i l node hmem
    obtain ⟨j, hj⟩ := circleDonorNodes_pos dc maxConn n i l node hmem
    obtain ⟨hb1, hb2⟩ := posX_circle_bounds j n
    rw [hj]
    refine ⟨hb1, hb2, ?_, ?_, ?_⟩
    · intro hc; rw [hc] at hb1; norm_num at hb1
    · intro hc; rw [hc] at hb2; norm_num at hb2
    · intro hc; rw [hc] at hb2; norm_num at hb2
  · intro idPre sz color shape x n i l node hmem
    obtain ⟨y, hy⟩ := lineNodes_pos idPre sz color shape x n i l node hmem
    rw [hy]
    rfl
  · intro idPre sz color shape x n i l j h
    rw [lineNodes_get_pos idPre sz color shape x n i l j h]
    rfl

/-- Counterexample to the centering part of C9.  A line region with a single
node places it at y equal to -20, so the region (midpoint -20) is not
centered around the reference axis y equal to 0; it sits half the 40-unit
spacing below it. -/
theorem line_region_offset_from_axis :
    lineNodes "donor_" 20 "#9ca3af" "circle" (-600) 1 0 ["D"] =
      [⟨"donor_D", "D", 20, "#9ca3af", "circle", .line (-600) (-20)⟩] ∧
    posY (Pos.line (-600) (-20)) = (-20 : ℝ) ∧ ((-20 : ℝ) ≠ 0) :=
  ⟨by decide, by norm_num [posY], by norm_num⟩

end OmriNet
